import Mathlib

/-!
Verification of the session/room synchronization engine of the swipe-and-dine
server (`src/server/server/index.ts`).

The TypeScript handler code is shallowly embedded below.  JavaScript `Map`s
are modelled as association lists (`List (String × V)`) with `Map.set`
semantics (`mapInsert`: replace the pair in place when the key is present,
append otherwise) and `Map.delete` (`mapDelete`).  `Math.random`-driven
behaviour (the Fisher–Yates shuffle, room-code generation, unique-id
generation) is modelled with explicit oracle parameters, so every theorem
quantifies over all random outcomes.  Strings use explicit per-character
lower/upper-casing (`strLower`/`strUpper`), matching JavaScript
`toLowerCase()`/`toUpperCase()` on the ASCII inputs involved.
-/

/-- A player's vote, from `shared/types.ts`: `type Choice = "YES" | "NO" | "NEUTRAL"`. -/
inductive Choice where
  | YES
  | NO
  | NEUTRAL
deriving DecidableEq

/-- A restaurant, from `shared/types.ts`: `interface Restaurant { id: string; name: string }`. -/
structure Restaurant where
  id : String
  name : String
deriving DecidableEq

/-- Lookup in an association list, modelling JavaScript `Map.get`. -/
def lookupA {V : Type} (m : List (String × V)) (k : String) : Option V :=
  match m with
  | [] => none
  | p :: rest => if p.1 = k then some p.2 else lookupA rest k

/-- Insertion modelling JavaScript `Map.set`: replace the entry in place when the
key is present (keeping its position), append a new entry otherwise. -/
def mapInsert {V : Type} (m : List (String × V)) (k : String) (v : V) : List (String × V) :=
  match m with
  | [] => [(k, v)]
  | p :: rest => if p.1 = k then (k, v) :: rest else p :: mapInsert rest k v

/-- Deletion modelling JavaScript `Map.delete`. -/
def mapDelete {V : Type} (m : List (String × V)) (k : String) : List (String × V) :=
  m.filter (fun p => decide (p.1 ≠ k))

/-- Per-character lowercasing, modelling JavaScript `String.prototype.toLowerCase`
on the ASCII strings used by the server. -/
def strLower (s : String) : String := ⟨s.data.map Char.toLower⟩

/-- Per-character uppercasing, modelling JavaScript `String.prototype.toUpperCase`. -/
def strUpper (s : String) : String := ⟨s.data.map Char.toUpper⟩

/-- Substring `s.substring(a, b)`, modelling the JavaScript string slice. -/
def strSub (s : String) (a b : Nat) : String := ⟨(s.data.drop a).take (b - a)⟩

/-- The dedup key used at `index.ts:219`: `r.name.toLowerCase()`. -/
def lowerName (r : Restaurant) : String := strLower r.name

/-- One step of building `new Map(room.restaurants.map((r) => [r.name.toLowerCase(), r]))`
(`index.ts:218-219`). -/
def dedupStep (m : List (String × Restaurant)) (r : Restaurant) : List (String × Restaurant) :=
  mapInsert m (lowerName r) r

/-- The dedup block at `index.ts:218-220`:
`Array.from(new Map(room.restaurants.map((r) => [r.name.toLowerCase(), r])).values())`. -/
def dedupRestaurants (rs : List Restaurant) : List Restaurant :=
  (rs.foldl dedupStep []).map Prod.snd

/-- Keys in first-occurrence order: specification helper for reasoning about
JavaScript `Map` key order (a re-set key keeps its original position). -/
def firstDedup : List String → List String
  | [] => []
  | k :: ks => k :: (firstDedup ks).filter (fun x => decide (x ≠ k))

/-- The last submitted restaurant whose lowercased name is `k`: specification
helper for the "last occurrence supersedes" behaviour of `Map.set`. -/
def lastWith (k : String) (rs : List Restaurant) : Option Restaurant :=
  (rs.filter (fun r => decide (lowerName r = k))).getLast?

/-- One swap `[shuffled[i], shuffled[j]] = [shuffled[j], shuffled[i]]` (`index.ts:63`). -/
def swapIdx {T : Type} (l : List T) (i j : Nat) : List T :=
  match l[i]?, l[j]? with
  | some a, some b => (l.set i b).set j a
  | _, _ => l

/-- The Fisher–Yates loop of `shuffleArray` (`index.ts:61-64`): for `i` from
`length-1` downto `1`, pick `j` in `[0, i]` and swap.  The random draw
`Math.floor(Math.random() * (i + 1))` is modelled by the oracle `rand`,
reduced mod `i + 1` to reflect its guaranteed range. -/
def fyLoop {T : Type} (rand : Nat → Nat) : List T → Nat → List T
  | l, 0 => l
  | l, Nat.succ i => fyLoop rand (swapIdx l (i + 1) (rand (i + 1) % (i + 2))) i

/-- `shuffleArray` (`index.ts:59-66`): copy, then run the Fisher–Yates loop from
index `length - 1`. -/
def shuffleArray {T : Type} (rand : Nat → Nat) (l : List T) : List T :=
  fyLoop rand l (l.length - 1)

/-- The per-room state, from `interface GameRoom` (`index.ts:32-42`).  The source
field `matches` is named `matchList` here because `matches` is a Lean keyword. -/
structure GameRoom where
  players : List String
  restaurants : List Restaurant
  playerDecks : List (String × List Restaurant)
  playerCardIndices : List (String × Nat)
  choices : List (String × List (String × Choice))
  matchList : List Restaurant
  neutrals : List Restaurant
  submittedPlayers : List String
  roundNumber : Nat
deriving DecidableEq

/-- Outbound socket notifications emitted by the handlers. -/
inductive Notif where
  | roomCreated (code : String)
  | playerJoined (count : Nat)
  | gameStart (restaurants : List Restaurant)
  | newRound (roundNumber : Nat) (restaurants : List Restaurant)
  | showCard (toPlayer : String) (r : Restaurant) (cardIndex total : Nat)
  | waitingForOther (toPlayer : String)
  | gameEnd (matchList neutrals : List Restaurant)
  | errorMsg (toPlayer : String) (message : String)
deriving DecidableEq

/-- One iteration of the `room.players.forEach` deck-assignment loop in
`startNewRound` (`index.ts:83-93`): each player (listed with its loop position,
which selects its independent shuffle oracle) gets a freshly shuffled deck
and a card index of `0`. -/
def assignDecksStep (rand : Nat → Nat → Nat) (restaurants : List Restaurant)
    (acc : List (String × List Restaurant) × List (String × Nat)) (ip : Nat × String) :
    List (String × List Restaurant) × List (String × Nat) :=
  (mapInsert acc.1 ip.2 (shuffleArray (rand ip.1) restaurants),
   mapInsert acc.2 ip.2 0)

/-- `startNewRound` (`index.ts:71-107`): store the round's restaurant list, clear
the choice ledger, give every player an independently shuffled deck and cursor 0,
broadcast `newRound`, and send each player the first card of their own deck. -/
def startNewRound (rand : Nat → Nat → Nat) (room : GameRoom) (restaurants : List Restaurant) :
    GameRoom × List Notif :=
  let room1 := { room with restaurants := restaurants, choices := [] }
  let maps := room1.players.enum.foldl (assignDecksStep rand restaurants)
      (room1.playerDecks, room1.playerCardIndices)
  let room2 := { room1 with playerDecks := maps.1, playerCardIndices := maps.2 }
  let firstCards := room2.players.filterMap (fun pid =>
    match lookupA room2.playerDecks pid with
    | some deck => deck.head?.map (fun r0 => Notif.showCard pid r0 0 deck.length)
    | none => none)
  (room2, Notif.newRound room2.roundNumber restaurants :: firstCards)

/-- Result of classifying one restaurant's pair of recorded choices. -/
inductive ClassResult where
  | Match
  | Neutral
  | Rejected
deriving DecidableEq

/-- The classification block at `index.ts:311-324`: `bothYes` wins, else
`hasNeutral && !hasNo` is a neutral fallback, else the item is rejected. -/
def classify (choices : List Choice) : ClassResult :=
  if choices.all (fun c => decide (c = Choice.YES)) then ClassResult.Match
  else if choices.any (fun c => decide (c = Choice.NEUTRAL)) &&
      ! choices.any (fun c => decide (c = Choice.NO)) then ClassResult.Neutral
  else ClassResult.Rejected

/-- One iteration of the results loop (`index.ts:306-326`): a restaurant with
exactly two recorded choices is pushed onto `matches` or `neutrals` according to
`classify`; restaurants with fewer than two recorded choices are skipped. -/
def resultStep (acc : GameRoom) (r : Restaurant) : GameRoom :=
  match lookupA acc.choices r.id with
  | some pcs =>
    if pcs.length = 2 then
      match classify (pcs.map Prod.snd) with
      | ClassResult.Match => { acc with matchList := acc.matchList ++ [r] }
      | ClassResult.Neutral => { acc with neutrals := acc.neutrals ++ [r] }
      | ClassResult.Rejected => acc
    else acc
  | none => acc

/-- The `room.restaurants.forEach` results loop (`index.ts:306-326`). -/
def computeResults (room : GameRoom) : GameRoom :=
  room.restaurants.foldl resultStep room

/-- The duplicate-vote guard at `index.ts:255-259`:
`existingChoices && existingChoices.has(socket.id)`. -/
def hasVoted (ledger : List (String × List (String × Choice))) (rid pid : String) : Bool :=
  match lookupA ledger rid with
  | some pcs => (lookupA pcs pid).isSome
  | none => false

/-- Recording a choice (`index.ts:264-268`): create the inner map for the
restaurant if absent, then set this player's choice in it. -/
def insertChoice (ledger : List (String × List (String × Choice))) (rid pid : String)
    (c : Choice) : List (String × List (String × Choice)) :=
  mapInsert ledger rid (mapInsert ((lookupA ledger rid).getD []) pid c)

/-- The `allPlayersDone` check at `index.ts:295-299`: every player's card index
equals their deck size (a missing deck counts as size 0; a missing index fails
the strict-equality comparison). -/
def allPlayersDone (room : GameRoom) : Bool :=
  room.players.all (fun q =>
    match lookupA room.playerCardIndices q with
    | some i => decide (i = ((lookupA room.playerDecks q).getD []).length)
    | none => false)

/-- The room-level part of the `makeChoice` handler (`index.ts:254-355`):
duplicate-vote guard, choice recording, cursor advance, next-card or
waiting notification, and — when every player is done — the results
computation followed by either a runoff round or the final `gameEnd`. -/
def makeChoiceRoom (rand : Nat → Nat → Nat) (room : GameRoom) (pid rid : String) (c : Choice) :
    GameRoom × List Notif :=
  if hasVoted room.choices rid pid then (room, [])
  else
    let room1 := { room with choices := insertChoice room.choices rid pid c }
    match lookupA room1.playerDecks pid, lookupA room1.playerCardIndices pid with
    | some deck, some idx =>
      let nextIndex := idx + 1
      let room2 := { room1 with
        playerCardIndices := mapInsert room1.playerCardIndices pid nextIndex }
      if h : nextIndex < deck.length then
        (room2, [Notif.showCard pid (deck.get ⟨nextIndex, h⟩) nextIndex deck.length])
      else
        if allPlayersDone room2 then
          let room3 := computeResults room2
          if 2 ≤ room3.matchList.length then
            let room4 := { room3 with roundNumber := room3.roundNumber + 1 }
            let runoff := room3.matchList
            let room5 := { room4 with matchList := [], neutrals := [] }
            let sr := startNewRound rand room5 runoff
            (sr.1, Notif.waitingForOther pid :: sr.2)
          else
            (room3, [Notif.waitingForOther pid, Notif.gameEnd room3.matchList room3.neutrals])
        else (room2, [Notif.waitingForOther pid])
    | _, _ => (room1, [])

/-- The fresh room built by the `createRoom` handler (`index.ts:124-134`). -/
def emptyRoom (pid : String) : GameRoom :=
  { players := [pid]
    restaurants := []
    playerDecks := []
    playerCardIndices := []
    choices := []
    matchList := []
    neutrals := []
    submittedPlayers := []
    roundNumber := 1 }

/-- `generateRoomCode` (`index.ts:51-53`):
`Math.random().toString(36).substring(2, 8).toUpperCase()`, with the
`Math.random().toString(36)` text supplied by the oracle `randStr`. -/
def generateRoomCode (randStr : String) : String := strUpper (strSub randStr 2 8)

/-- The `createRoom` handler (`index.ts:120-144`): generate one code (no retry)
and `rooms.set(roomCode, room)` a fresh room under it. -/
def handleCreateRoom (randStr : String) (rooms : List (String × GameRoom)) (pid : String) :
    List (String × GameRoom) × Option String × List Notif :=
  let code := generateRoomCode randStr
  (mapInsert rooms code (emptyRoom pid), some code,
   [Notif.roomCreated code, Notif.playerJoined 1])

/-- The `makeChoice` handler including its room-resolution guards
(`index.ts:244-355`): no current room yields an error notification; a missing
room is a silent no-op; otherwise delegate to the room-level handler. -/
def handleMakeChoice (rand : Nat → Nat → Nat) (rooms : List (String × GameRoom))
    (currentRoom : Option String) (pid rid : String) (c : Choice) :
    List (String × GameRoom) × List Notif :=
  match currentRoom with
  | none => (rooms, [Notif.errorMsg pid "Not in a room"])
  | some code =>
    match lookupA rooms code with
    | none => (rooms, [])
    | some room =>
      let res := makeChoiceRoom rand room pid rid c
      (mapInsert rooms code res.1, res.2)

/-- The `submitRestaurants` handler (`index.ts:180-238`): room guards,
duplicate-submission guard, appending the named restaurants (ids supplied by
the `mkId` oracle standing for the slug-timestamp-random generator at
`index.ts:205`), and — once both players have submitted — dedup and first
round start. -/
def handleSubmitRestaurants (rand : Nat → Nat → Nat) (mkId : Nat → String)
    (rooms : List (String × GameRoom)) (currentRoom : Option String) (pid : String)
    (names : List String) : List (String × GameRoom) × List Notif :=
  match currentRoom with
  | none => (rooms, [Notif.errorMsg pid "Not in a room"])
  | some code =>
    match lookupA rooms code with
    | none => (rooms, [])
    | some room =>
      if room.submittedPlayers.contains pid then (rooms, [])
      else
        let newRs := names.enum.map (fun p => ({ id := mkId p.1, name := p.2 } : Restaurant))
        let room1 := { room with
          restaurants := room.restaurants ++ newRs
          submittedPlayers := room.submittedPlayers ++ [pid] }
        if room1.submittedPlayers.length = 2 then
          let unique := dedupRestaurants room1.restaurants
          let room2 := { room1 with restaurants := unique }
          let sr := startNewRound rand room2 unique
          (mapInsert rooms code sr.1, Notif.gameStart unique :: sr.2)
        else (mapInsert rooms code room1, [])

/-- The `disconnect` handler (`index.ts:360-376`): filter the player out of the
room's player list and delete the room when it becomes empty. -/
def handleDisconnect (rooms : List (String × GameRoom)) (currentRoom : Option String)
    (pid : String) : List (String × GameRoom) :=
  match currentRoom with
  | none => rooms
  | some code =>
    match lookupA rooms code with
    | none => rooms
    | some room =>
      let room1 := { room with players := room.players.filter (fun q => decide (q ≠ pid)) }
      if room1.players.length = 0 then mapDelete rooms code
      else mapInsert rooms code room1

/-- The cursor invariant of §3 of the spec: every participant's card index is
between 0 and the length of their personal deck. -/
def cursorInv (room : GameRoom) : Prop :=
  ∀ q ∈ room.players, ∀ d i,
    lookupA room.playerDecks q = some d → lookupA room.playerCardIndices q = some i →
    i ≤ d.length

/-- C1: for every pair of recorded choices the Result Classifier follows the
exact decision table — Match iff both are YES, Rejected iff at least one is NO
(NO takes precedence), Neutral otherwise; including the four listed instances. -/
theorem C1_classifier_decision_table (c1 c2 : Choice) :
    ((classify [c1, c2] = ClassResult.Match) ↔ (c1 = Choice.YES ∧ c2 = Choice.YES)) ∧
    ((classify [c1, c2] = ClassResult.Rejected) ↔ (c1 = Choice.NO ∨ c2 = Choice.NO)) ∧
    ((classify [c1, c2] = ClassResult.Neutral) ↔
      ((c1 = Choice.NEUTRAL ∨ c2 = Choice.NEUTRAL) ∧ c1 ≠ Choice.NO ∧ c2 ≠ Choice.NO)) ∧
    classify [Choice.YES, Choice.YES] = ClassResult.Match ∧
    classify [Choice.YES, Choice.NO] = ClassResult.Rejected ∧
    classify [Choice.NEUTRAL, Choice.YES] = ClassResult.Neutral ∧
    classify [Choice.NO, Choice.NEUTRAL] = ClassResult.Rejected := by
  cases c1 <;> cases c2 <;> decide

theorem lookupA_mapInsert_self {V : Type} (m : List (String × V)) (k : String) (v : V) :
    lookupA (mapInsert m k v) k = some v := by
  induction m with
  | nil => simp [mapInsert, lookupA]
  | cons p rest ih =>
    by_cases h : p.1 = k
    · simp [mapInsert, h, lookupA]
    · simp [mapInsert, h, lookupA, ih]

theorem lookupA_mapInsert_ne {V : Type} (m : List (String × V)) {k k' : String} (v : V)
    (h : k' ≠ k) : lookupA (mapInsert m k v) k' = lookupA m k' := by
  have h2 : k ≠ k' := Ne.symm h
  induction m with
  | nil => simp [mapInsert, lookupA, h2]
  | cons p rest ih =>
    by_cases hp : p.1 = k
    · have hp' : p.1 ≠ k' := fun hh => h2 (hp ▸ hh)
      simp [mapInsert, hp, lookupA, h2, hp']
    · simp [mapInsert, hp, lookupA, ih]

theorem mapInsert_keys {V : Type} (m : List (String × V)) (k : String) (v : V) :
    (mapInsert m k v).map Prod.fst =
      if k ∈ m.map Prod.fst then m.map Prod.fst else m.map Prod.fst ++ [k] := by
  induction m with
  | nil => simp [mapInsert]
  | cons p rest ih =>
    by_cases h : p.1 = k
    · simp [mapInsert, h]
    · have hkp : k ≠ p.1 := fun hh => h hh.symm
      by_cases hmem : k ∈ rest.map Prod.fst
      · simp [mapInsert, h, ih, hmem, hkp]
      · simp [mapInsert, h, ih, hmem, hkp]

theorem mem_mapInsert {V : Type} {m : List (String × V)} {k : String} {v : V}
    (hnd : (m.map Prod.fst).Nodup) {p : String × V} (hp : p ∈ mapInsert m k v) :
    p = (k, v) ∨ (p ∈ m ∧ p.1 ≠ k) := by
  induction m with
  | nil => simp [mapInsert] at hp; simp [hp]
  | cons q rest ih =>
    simp only [List.map_cons, List.nodup_cons] at hnd
    by_cases h : q.1 = k
    · simp only [mapInsert, if_pos h] at hp
      rcases List.mem_cons.mp hp with h1 | h1
      · exact Or.inl h1
      · refine Or.inr ⟨List.mem_cons_of_mem _ h1, ?_⟩
        intro hk
        exact hnd.1 (h ▸ hk ▸ List.mem_map_of_mem Prod.fst h1)
    · simp only [mapInsert, if_neg h] at hp
      rcases List.mem_cons.mp hp with h1 | h1
      · exact Or.inr ⟨h1 ▸ List.mem_cons_self q rest, h1 ▸ h⟩
      · rcases ih hnd.2 h1 with h2 | h2
        · exact Or.inl h2
        · exact Or.inr ⟨List.mem_cons_of_mem _ h2.1, h2.2⟩

theorem mem_firstDedup {k : String} : ∀ {ks : List String}, k ∈ firstDedup ks ↔ k ∈ ks := by
  intro ks
  induction ks with
  | nil => simp [firstDedup]
  | cons k0 ks ih =>
    simp only [firstDedup, List.mem_cons, List.mem_filter]
    constructor
    · rintro (h | ⟨h, _⟩)
      · exact Or.inl h
      · exact Or.inr (ih.mp h)
    · rintro (h | h)
      · exact Or.inl h
      · by_cases hk : k = k0
        · exact Or.inl hk
        · exact Or.inr ⟨ih.mpr h, by simpa using hk⟩

theorem nodup_firstDedup : ∀ (ks : List String), (firstDedup ks).Nodup := by
  intro ks
  induction ks with
  | nil => simp [firstDedup]
  | cons k0 ks ih =>
    simp only [firstDedup, List.nodup_cons]
    constructor
    · intro hmem
      exact (by simpa using (List.mem_filter.mp hmem).2 : k0 ≠ k0) rfl
    · exact ih.filter _

theorem firstDedup_concat (ks : List String) (k : String) :
    firstDedup (ks ++ [k]) = if k ∈ ks then firstDedup ks else firstDedup ks ++ [k] := by
  induction ks with
  | nil => simp [firstDedup]
  | cons k0 ks ih =>
    have step : firstDedup ((k0 :: ks) ++ [k]) =
        k0 :: (firstDedup (ks ++ [k])).filter (fun x => decide (x ≠ k0)) := rfl
    rw [step, ih]
    by_cases h2 : k ∈ ks
    · rw [if_pos h2, if_pos (List.mem_cons_of_mem _ h2)]
      rfl
    · rw [if_neg h2, List.filter_append]
      by_cases h1 : k = k0
      · subst h1
        rw [if_pos (List.mem_cons_self _ _)]
        simp [firstDedup]
      · rw [if_neg (fun hh => (List.mem_cons.mp hh).elim (fun a => h1 a) h2)]
        simp [firstDedup, h1]

theorem firstDedup_of_nodup : ∀ {ks : List String}, ks.Nodup → firstDedup ks = ks := by
  intro ks h
  induction ks with
  | nil => rfl
  | cons k0 ks ih =>
    simp only [List.nodup_cons] at h
    simp only [firstDedup, ih h.2]
    rw [List.filter_eq_self.mpr]
    intro x hx
    simpa using fun hh : x = k0 => h.1 (hh ▸ hx)

theorem lastWith_concat (k : String) (rs : List Restaurant) (r : Restaurant) :
    lastWith k (rs ++ [r]) = if lowerName r = k then some r else lastWith k rs := by
  unfold lastWith
  rw [List.filter_append]
  by_cases h : lowerName r = k
  · simp [h, List.getLast?_concat]
  · simp [h]

theorem dedup_fold_spec (rs : List Restaurant) :
    ((rs.foldl dedupStep []).map Prod.fst = firstDedup (rs.map lowerName)) ∧
    (∀ p ∈ rs.foldl dedupStep [], p.1 = lowerName p.2 ∧ lastWith p.1 rs = some p.2) := by
  induction rs using List.reverseRecOn with
  | nil => simp [firstDedup]
  | append_singleton rs r ih =>
    rw [List.foldl_concat]
    have hkeys := ih.1
    have hnd : ((rs.foldl dedupStep []).map Prod.fst).Nodup := by
      rw [hkeys]; exact nodup_firstDedup _
    constructor
    · rw [dedupStep, mapInsert_keys, List.map_append, List.map_singleton,
        firstDedup_concat, hkeys]
      by_cases h : lowerName r ∈ rs.map lowerName
      · rw [if_pos (mem_firstDedup.mpr h), if_pos h]
      · rw [if_neg (fun hh => h (mem_firstDedup.mp hh)), if_neg h]
    · intro p hp
      rcases mem_mapInsert hnd hp with h | ⟨h, hne⟩
      · subst h
        exact ⟨rfl, by rw [lastWith_concat, if_pos rfl]⟩
      · rcases ih.2 p h with ⟨h1, h2⟩
        exact ⟨h1, by rw [lastWith_concat, if_neg (fun hh => hne hh.symm)]; exact h2⟩

theorem dedup_map_lowerName (rs : List Restaurant) :
    (dedupRestaurants rs).map lowerName = firstDedup (rs.map lowerName) := by
  have spec := dedup_fold_spec rs
  unfold dedupRestaurants
  rw [List.map_map, ← spec.1]
  exact List.map_congr_left (fun p hp => ((spec.2 p hp).1).symm)

/-- C2: after the second submission the combined list is deduplicated by
case-insensitive name — one retained item per lowercased name, every submitted
lowercased name still represented, the retained item being the last occurrence
in submission order, and for submissions with no overlapping (case-insensitive)
names the deduplicated list has exactly `len(a) + len(b)` entries. -/
theorem C2_dedup_case_insensitive_last_wins (a b : List Restaurant) :
    ((dedupRestaurants (a ++ b)).map lowerName).Nodup ∧
    (∀ r ∈ a ++ b, ∃ x ∈ dedupRestaurants (a ++ b), lowerName x = lowerName r) ∧
    (∀ x ∈ dedupRestaurants (a ++ b), lastWith (lowerName x) (a ++ b) = some x) ∧
    (((a ++ b).map lowerName).Nodup →
      (dedupRestaurants (a ++ b)).length = a.length + b.length) := by
  have spec := dedup_fold_spec (a ++ b)
  refine ⟨?_, ?_, ?_, ?_⟩
  · rw [dedup_map_lowerName]
    exact nodup_firstDedup _
  · intro r hr
    have hk : lowerName r ∈ (dedupRestaurants (a ++ b)).map lowerName := by
      rw [dedup_map_lowerName, mem_firstDedup]
      exact List.mem_map_of_mem lowerName hr
    rcases List.mem_map.mp hk with ⟨x, hx, hxr⟩
    exact ⟨x, hx, hxr⟩
  · intro x hx
    rcases List.mem_map.mp hx with ⟨p, hp, hpx⟩
    rcases spec.2 p hp with ⟨h1, h2⟩
    rw [← hpx, ← h1]
    exact hpx ▸ h2
  · intro hnd
    have hlen : (dedupRestaurants (a ++ b)).length = ((a ++ b).map lowerName).length := by
      rw [← List.length_map (dedupRestaurants (a ++ b)) lowerName, dedup_map_lowerName,
        firstDedup_of_nodup hnd]
    simpa using hlen

/-- C2 witness: disjoint submissions keep all three entries, each the last (only)
occurrence of its lowercased name. -/
theorem C2_witness :
    ((([⟨"a1", "Tacos"⟩] ++ [⟨"b1", "Pizza"⟩, ⟨"b2", "Sushi"⟩] : List Restaurant)).map
      lowerName).Nodup ∧
    (dedupRestaurants ([⟨"a1", "Tacos"⟩] ++ [⟨"b1", "Pizza"⟩, ⟨"b2", "Sushi"⟩])).length = 3 ∧
    lastWith (lowerName ⟨"b1", "Pizza"⟩)
      ([⟨"a1", "Tacos"⟩] ++ [⟨"b1", "Pizza"⟩, ⟨"b2", "Sushi"⟩]) = some ⟨"b1", "Pizza"⟩ :=
  ⟨by decide,
   (C2_dedup_case_insensitive_last_wins [⟨"a1", "Tacos"⟩]
      [⟨"b1", "Pizza"⟩, ⟨"b2", "Sushi"⟩]).2.2.2 (by decide),
   (C2_dedup_case_insensitive_last_wins [⟨"a1", "Tacos"⟩]
      [⟨"b1", "Pizza"⟩, ⟨"b2", "Sushi"⟩]).2.2.1 ⟨"b1", "Pizza"⟩ (by decide)⟩

/-- C10: after dedup, the retained items sit at the positions of the first
occurrences of their lowercased names (the key order of the JavaScript `Map`),
while each retained item object is the last occurrence submitted. -/
theorem C10_dedup_position_first_value_last (rs : List Restaurant) :
    (dedupRestaurants rs).map lowerName = firstDedup (rs.map lowerName) ∧
    ∀ x ∈ dedupRestaurants rs, lastWith (lowerName x) rs = some x := by
  refine ⟨dedup_map_lowerName rs, ?_⟩
  intro x hx
  rcases List.mem_map.mp hx with ⟨p, hp, hpx⟩
  rcases (dedup_fold_spec rs).2 p hp with ⟨h1, h2⟩
  rw [← hpx, ← h1]
  exact hpx ▸ h2

/-- C10 witness: a late case-duplicate (`"pasta"`) takes the early duplicate's
first position but keeps its own id and spelling. -/
theorem C10_witness :
    dedupRestaurants [⟨"x1", "Pasta"⟩, ⟨"x2", "Burger"⟩, ⟨"x3", "pasta"⟩] =
      [⟨"x3", "pasta"⟩, ⟨"x2", "Burger"⟩] ∧
    lastWith (lowerName ⟨"x3", "pasta"⟩) [⟨"x1", "Pasta"⟩, ⟨"x2", "Burger"⟩, ⟨"x3", "pasta"⟩] =
      some ⟨"x3", "pasta"⟩ :=
  ⟨by decide,
   (C10_dedup_position_first_value_last [⟨"x1", "Pasta"⟩, ⟨"x2", "Burger"⟩, ⟨"x3", "pasta"⟩]).2
     ⟨"x3", "pasta"⟩ (by decide)⟩

theorem get_cons_set_perm {T : Type} :
    ∀ (xs : List T) (k : Nat) (x : T) (h : k < xs.length),
    (xs.get ⟨k, h⟩ :: xs.set k x).Perm (x :: xs) := by
  intro xs
  induction xs with
  | nil => intro k x h; simp at h
  | cons y ys ih =>
    intro k x h
    cases k with
    | zero => exact List.Perm.swap x y ys
    | succ j =>
      have hj : j < ys.length := by simpa using h
      show (ys.get ⟨j, hj⟩ :: (y :: ys.set j x)).Perm (x :: y :: ys)
      exact (List.Perm.swap y (ys.get ⟨j, hj⟩) (ys.set j x)).trans
        (((ih j x hj).cons y).trans (List.Perm.swap x y ys))

theorem swapIdx_perm {T : Type} (l : List T) (i j : Nat) : (swapIdx l i j).Perm l := by
  unfold swapIdx
  cases hi : l[i]? with
  | none => exact List.Perm.refl l
  | some a =>
    cases hj : l[j]? with
    | none => exact List.Perm.refl l
    | some b =>
      have hi' : i < l.length := (List.getElem?_eq_some.mp hi).1
      have hj' : j < l.length := (List.getElem?_eq_some.mp hj).1
      have haE : l[i] = a := by
        rcases List.getElem?_eq_some.mp hi with ⟨h, hv⟩
        exact hv
      have hbE : l[j] = b := by
        rcases List.getElem?_eq_some.mp hj with ⟨h, hv⟩
        exact hv
      have ha : l.get ⟨i, hi'⟩ = a := haE
      have hj2 : j < (l.set i b).length := by simpa using hj'
      have hmb : (l.set i b).get ⟨j, hj2⟩ = b := by
        show (l.set i b)[j] = b
        by_cases hij : i = j
        · subst hij
          simp [List.getElem_set]
        · rw [List.getElem_set, if_neg hij]
          exact hbE
      have step1 : ((l.set i b).get ⟨j, hj2⟩ :: (l.set i b).set j a).Perm
          (a :: l.set i b) := get_cons_set_perm (l.set i b) j a hj2
      rw [hmb] at step1
      have step2 : (l.get ⟨i, hi'⟩ :: l.set i b).Perm (b :: l) := get_cons_set_perm l i b hi'
      rw [ha] at step2
      exact List.Perm.cons_inv (step1.trans step2)

theorem fyLoop_perm {T : Type} (rand : Nat → Nat) :
    ∀ (n : Nat) (l : List T), (fyLoop rand l n).Perm l := by
  intro n
  induction n with
  | zero => intro l; exact List.Perm.refl l
  | succ i ih =>
    intro l
    exact (ih _).trans (swapIdx_perm l (i + 1) (rand (i + 1) % (i + 2)))

theorem shuffleArray_perm {T : Type} (rand : Nat → Nat) (l : List T) :
    (shuffleArray rand l).Perm l :=
  fyLoop_perm rand (l.length - 1) l

theorem assignDecks_lookup_notMem (rand : Nat → Nat → Nat) (restaurants : List Restaurant) :
    ∀ (ps : List (Nat × String)) (acc : List (String × List Restaurant) × List (String × Nat))
      (q : String), q ∉ ps.map Prod.snd →
      lookupA (ps.foldl (assignDecksStep rand restaurants) acc).1 q = lookupA acc.1 q ∧
      lookupA (ps.foldl (assignDecksStep rand restaurants) acc).2 q = lookupA acc.2 q := by
  intro ps
  induction ps with
  | nil => intro acc q _; exact ⟨rfl, rfl⟩
  | cons ip rest ih =>
    intro acc q hq
    simp only [List.map_cons, List.mem_cons, not_or] at hq
    rcases ih (assignDecksStep rand restaurants acc ip) q hq.2 with ⟨h1, h2⟩
    rw [List.foldl_cons]
    refine ⟨h1.trans ?_, h2.trans ?_⟩
    · exact lookupA_mapInsert_ne _ _ hq.1
    · exact lookupA_mapInsert_ne _ _ hq.1

theorem assignDecks_lookup_mem (rand : Nat → Nat → Nat) (restaurants : List Restaurant) :
    ∀ (ps : List (Nat × String)) (acc : List (String × List Restaurant) × List (String × Nat))
      (q : String), q ∈ ps.map Prod.snd →
      (∃ i, lookupA (ps.foldl (assignDecksStep rand restaurants) acc).1 q =
        some (shuffleArray (rand i) restaurants)) ∧
      lookupA (ps.foldl (assignDecksStep rand restaurants) acc).2 q = some 0 := by
  intro ps
  induction ps with
  | nil => intro acc q hq; simp at hq
  | cons ip rest ih =>
    intro acc q hq
    by_cases h : q ∈ rest.map Prod.snd
    · exact ih _ q h
    · have hqip : q = ip.2 := by
        rw [List.map_cons] at hq
        rcases List.mem_cons.mp hq with h1 | h1
        · exact h1
        · exact absurd h1 h
      rcases assignDecks_lookup_notMem rand restaurants rest
          (assignDecksStep rand restaurants acc ip) q h with ⟨h1, h2⟩
      subst hqip
      rw [List.foldl_cons]
      refine ⟨⟨ip.1, h1.trans ?_⟩, h2.trans ?_⟩
      · exact lookupA_mapInsert_self _ _ _
      · exact lookupA_mapInsert_self _ _ _

theorem startNewRound_players (rand : Nat → Nat → Nat) (room : GameRoom)
    (L : List Restaurant) : (startNewRound rand room L).1.players = room.players := rfl

theorem startNewRound_restaurants (rand : Nat → Nat → Nat) (room : GameRoom)
    (L : List Restaurant) : (startNewRound rand room L).1.restaurants = L := rfl

theorem startNewRound_choices (rand : Nat → Nat → Nat) (room : GameRoom)
    (L : List Restaurant) : (startNewRound rand room L).1.choices = [] := rfl

theorem startNewRound_matchList (rand : Nat → Nat → Nat) (room : GameRoom)
    (L : List Restaurant) : (startNewRound rand room L).1.matchList = room.matchList := rfl

theorem startNewRound_neutrals (rand : Nat → Nat → Nat) (room : GameRoom)
    (L : List Restaurant) : (startNewRound rand room L).1.neutrals = room.neutrals := rfl

theorem startNewRound_roundNumber (rand : Nat → Nat → Nat) (room : GameRoom)
    (L : List Restaurant) : (startNewRound rand room L).1.roundNumber = room.roundNumber := rfl

theorem startNewRound_playerDecks (rand : Nat → Nat → Nat) (room : GameRoom)
    (L : List Restaurant) : (startNewRound rand room L).1.playerDecks =
      (room.players.enum.foldl (assignDecksStep rand L)
        (room.playerDecks, room.playerCardIndices)).1 := rfl

theorem startNewRound_playerCardIndices (rand : Nat → Nat → Nat) (room : GameRoom)
    (L : List Restaurant) : (startNewRound rand room L).1.playerCardIndices =
      (room.players.enum.foldl (assignDecksStep rand L)
        (room.playerDecks, room.playerCardIndices)).2 := rfl

theorem startNewRound_notifs (rand : Nat → Nat → Nat) (room : GameRoom)
    (L : List Restaurant) : ∃ firstCards,
      (startNewRound rand room L).2 = Notif.newRound room.roundNumber L :: firstCards :=
  ⟨_, rfl⟩

theorem startNewRound_decks_spec (rand : Nat → Nat → Nat) (room : GameRoom)
    (L : List Restaurant) (p : String) (hp : p ∈ room.players) :
    (∃ d, lookupA (startNewRound rand room L).1.playerDecks p = some d ∧ d.Perm L) ∧
    lookupA (startNewRound rand room L).1.playerCardIndices p = some 0 := by
  have hmem : p ∈ room.players.enum.map Prod.snd := by
    rw [List.enum_map_snd]; exact hp
  rcases assignDecks_lookup_mem rand L room.players.enum
      (room.playerDecks, room.playerCardIndices) p hmem with ⟨⟨i, h1⟩, h2⟩
  refine ⟨⟨shuffleArray (rand i) L, ?_, shuffleArray_perm _ _⟩, ?_⟩
  · rw [startNewRound_playerDecks]; exact h1
  · rw [startNewRound_playerCardIndices]; exact h2

/-- C8: for every round started with item list `L`, every present participant's
personal deck is a permutation of `L` (each produced by an independent
Fisher–Yates shuffle call, here an independent slice `rand i` of the oracle),
and every participant's cursor starts at 0. -/
theorem C8_decks_permutations_cursor_zero (rand : Nat → Nat → Nat) (room : GameRoom)
    (L : List Restaurant) (p : String) (hp : p ∈ room.players) :
    (∃ d, lookupA (startNewRound rand room L).1.playerDecks p = some d ∧ d.Perm L) ∧
    lookupA (startNewRound rand room L).1.playerCardIndices p = some 0 :=
  startNewRound_decks_spec rand room L p hp

/-- C8 witness: in a concrete two-player room, both decks after a round start
are permutations of the round's list and both cursors are 0. -/
theorem C8_witness :
    ((∃ d, lookupA (startNewRound (fun _ _ => 1)
        { players := ["p1", "p2"], restaurants := [], playerDecks := [],
          playerCardIndices := [], choices := [], matchList := [], neutrals := [],
          submittedPlayers := ["p1", "p2"], roundNumber := 1 }
        [⟨"r1", "Tacos"⟩, ⟨"r2", "Pizza"⟩]).1.playerDecks "p2" = some d ∧
      d.Perm [⟨"r1", "Tacos"⟩, ⟨"r2", "Pizza"⟩]) ∧
    lookupA (startNewRound (fun _ _ => 1)
        { players := ["p1", "p2"], restaurants := [], playerDecks := [],
          playerCardIndices := [], choices := [], matchList := [], neutrals := [],
          submittedPlayers := ["p1", "p2"], roundNumber := 1 }
        [⟨"r1", "Tacos"⟩, ⟨"r2", "Pizza"⟩]).1.playerCardIndices "p2" = some 0) :=
  C8_decks_permutations_cursor_zero (fun _ _ => 1)
    { players := ["p1", "p2"], restaurants := [], playerDecks := [],
      playerCardIndices := [], choices := [], matchList := [], neutrals := [],
      submittedPlayers := ["p1", "p2"], roundNumber := 1 }
    [⟨"r1", "Tacos"⟩, ⟨"r2", "Pizza"⟩] "p2" (by decide)

theorem mapInsert_of_notMem {V : Type} {m : List (String × V)} {k : String} (v : V)
    (h : k ∉ m.map Prod.fst) : mapInsert m k v = m ++ [(k, v)] := by
  induction m with
  | nil => rfl
  | cons p rest ih =>
    simp only [List.map_cons, List.mem_cons, not_or] at h
    rw [mapInsert, if_neg (fun hh => h.1 hh.symm), ih h.2, List.cons_append]

theorem mapInsert_self_eq {V : Type} :
    ∀ {m : List (String × V)} {k : String} {v : V},
    lookupA m k = some v → mapInsert m k v = m := by
  intro m
  induction m with
  | nil => intro k v h; simp [lookupA] at h
  | cons p rest ih =>
    intro k v h
    by_cases hp : p.1 = k
    · rw [lookupA, if_pos hp] at h
      obtain ⟨p1, p2⟩ := p
      obtain rfl : p2 = v := by simpa using h
      obtain rfl : p1 = k := hp
      rw [mapInsert, if_pos rfl]
    · rw [lookupA, if_neg hp] at h
      rw [mapInsert, if_neg hp, ih h]

theorem lookupA_mapDelete_self {V : Type} (m : List (String × V)) (k : String) :
    lookupA (mapDelete m k) k = none := by
  induction m with
  | nil => rfl
  | cons p rest ih =>
    by_cases hp : p.1 = k
    · simpa [mapDelete, hp] using ih
    · simpa [mapDelete, lookupA, hp] using ih

/-- Boolean form of the cursor invariant, for evaluating concrete rooms. -/
def cursorInvB (room : GameRoom) : Bool :=
  room.players.all (fun q =>
    match lookupA room.playerDecks q, lookupA room.playerCardIndices q with
    | some d, some i => decide (i ≤ d.length)
    | _, _ => true)

theorem cursorInv_iff (room : GameRoom) : cursorInv room ↔ cursorInvB room = true := by
  unfold cursorInv cursorInvB
  rw [List.all_eq_true]
  constructor
  · intro h q hq
    cases h1 : lookupA room.playerDecks q with
    | none => simp [h1]
    | some d =>
      cases h2 : lookupA room.playerCardIndices q with
      | none => simp [h1, h2]
      | some i => simpa [h1, h2] using h q hq d i h1 h2
  · intro h q hq d i h1 h2
    have hx := h q hq
    rw [h1, h2] at hx
    simpa using hx

theorem resultStep_preserves (acc : GameRoom) (r : Restaurant) :
    (resultStep acc r).players = acc.players ∧
    (resultStep acc r).restaurants = acc.restaurants ∧
    (resultStep acc r).playerDecks = acc.playerDecks ∧
    (resultStep acc r).playerCardIndices = acc.playerCardIndices ∧
    (resultStep acc r).choices = acc.choices ∧
    (resultStep acc r).roundNumber = acc.roundNumber := by
  refine ⟨?_, ?_, ?_, ?_, ?_, ?_⟩ <;>
    · unfold resultStep
      repeat' split
      all_goals rfl

theorem foldl_resultStep_preserves :
    ∀ (rs : List Restaurant) (acc : GameRoom),
    ((rs.foldl resultStep acc).players = acc.players) ∧
    ((rs.foldl resultStep acc).restaurants = acc.restaurants) ∧
    ((rs.foldl resultStep acc).playerDecks = acc.playerDecks) ∧
    ((rs.foldl resultStep acc).playerCardIndices = acc.playerCardIndices) ∧
    ((rs.foldl resultStep acc).choices = acc.choices) ∧
    ((rs.foldl resultStep acc).roundNumber = acc.roundNumber) := by
  intro rs
  induction rs with
  | nil => intro acc; exact ⟨rfl, rfl, rfl, rfl, rfl, rfl⟩
  | cons r rest ih =>
    intro acc
    have h1 := resultStep_preserves acc r
    have h2 := ih (resultStep acc r)
    exact ⟨h2.1.trans h1.1, h2.2.1.trans h1.2.1, h2.2.2.1.trans h1.2.2.1,
      h2.2.2.2.1.trans h1.2.2.2.1, h2.2.2.2.2.1.trans h1.2.2.2.2.1,
      h2.2.2.2.2.2.trans h1.2.2.2.2.2⟩

theorem computeResults_preserves (room : GameRoom) :
    ((computeResults room).players = room.players) ∧
    ((computeResults room).restaurants = room.restaurants) ∧
    ((computeResults room).playerDecks = room.playerDecks) ∧
    ((computeResults room).playerCardIndices = room.playerCardIndices) ∧
    ((computeResults room).choices = room.choices) ∧
    ((computeResults room).roundNumber = room.roundNumber) :=
  foldl_resultStep_preserves room.restaurants room

theorem makeChoiceRoom_dup (rand : Nat → Nat → Nat) (room : GameRoom) (pid rid : String)
    (c : Choice) (h : hasVoted room.choices rid pid = true) :
    makeChoiceRoom rand room pid rid c = (room, []) := by
  unfold makeChoiceRoom
  rw [if_pos h]

theorem makeChoiceRoom_noDeck (rand : Nat → Nat → Nat) (room : GameRoom) (pid rid : String)
    (c : Choice) (h : hasVoted room.choices rid pid = false)
    (hdk : lookupA room.playerDecks pid = none) :
    makeChoiceRoom rand room pid rid c =
      ({ room with choices := insertChoice room.choices rid pid c }, []) := by
  unfold makeChoiceRoom
  rw [if_neg (by simp [h])]
  simp only [hdk]

theorem makeChoiceRoom_noIdx (rand : Nat → Nat → Nat) (room : GameRoom) (pid rid : String)
    (c : Choice) (h : hasVoted room.choices rid pid = false)
    (hix : lookupA room.playerCardIndices pid = none) :
    makeChoiceRoom rand room pid rid c =
      ({ room with choices := insertChoice room.choices rid pid c }, []) := by
  unfold makeChoiceRoom
  rw [if_neg (by simp [h])]
  cases hdk : lookupA room.playerDecks pid <;> simp only [hdk, hix]

theorem makeChoiceRoom_advance (rand : Nat → Nat → Nat) (room : GameRoom) (pid rid : String)
    (c : Choice) (deck : List Restaurant) (idx : Nat)
    (h : hasVoted room.choices rid pid = false)
    (hdk : lookupA room.playerDecks pid = some deck)
    (hix : lookupA room.playerCardIndices pid = some idx)
    (hlt : idx + 1 < deck.length) :
    makeChoiceRoom rand room pid rid c =
      ({ room with
          choices := insertChoice room.choices rid pid c
          playerCardIndices := mapInsert room.playerCardIndices pid (idx + 1) },
       [Notif.showCard pid (deck.get ⟨idx + 1, hlt⟩) (idx + 1) deck.length]) := by
  unfold makeChoiceRoom
  rw [if_neg (by simp [h])]
  simp only [hdk, hix]
  rw [dif_pos hlt]

theorem makeChoiceRoom_finish_notAllDone (rand : Nat → Nat → Nat) (room : GameRoom)
    (pid rid : String) (c : Choice) (deck : List Restaurant) (idx : Nat)
    (h : hasVoted room.choices rid pid = false)
    (hdk : lookupA room.playerDecks pid = some deck)
    (hix : lookupA room.playerCardIndices pid = some idx)
    (hge : ¬ idx + 1 < deck.length)
    (hdone : allPlayersDone { room with
        choices := insertChoice room.choices rid pid c
        playerCardIndices := mapInsert room.playerCardIndices pid (idx + 1) } = false) :
    makeChoiceRoom rand room pid rid c =
      ({ room with
          choices := insertChoice room.choices rid pid c
          playerCardIndices := mapInsert room.playerCardIndices pid (idx + 1) },
       [Notif.waitingForOther pid]) := by
  unfold makeChoiceRoom
  rw [if_neg (by simp [h])]
  simp only [hdk, hix]
  rw [dif_neg hge]
  simp only [hdone]
  rfl

theorem makeChoiceRoom_finish_runoff (rand : Nat → Nat → Nat) (room : GameRoom)
    (pid rid : String) (c : Choice) (deck : List Restaurant) (idx : Nat)
    (h : hasVoted room.choices rid pid = false)
    (hdk : lookupA room.playerDecks pid = some deck)
    (hix : lookupA room.playerCardIndices pid = some idx)
    (hge : ¬ idx + 1 < deck.length)
    (hdone : allPlayersDone { room with
        choices := insertChoice room.choices rid pid c
        playerCardIndices := mapInsert room.playerCardIndices pid (idx + 1) } = true)
    (hm : 2 ≤ (computeResults { room with
        choices := insertChoice room.choices rid pid c
        playerCardIndices := mapInsert room.playerCardIndices pid (idx + 1) }).matchList.length) :
    makeChoiceRoom rand room pid rid c =
      ((startNewRound rand
          { computeResults { room with
              choices := insertChoice room.choices rid pid c
              playerCardIndices := mapInsert room.playerCardIndices pid (idx + 1) } with
            roundNumber := (computeResults { room with
              choices := insertChoice room.choices rid pid c
              playerCardIndices := mapInsert room.playerCardIndices pid (idx + 1)
              }).roundNumber + 1
            matchList := []
            neutrals := [] }
          (computeResults { room with
              choices := insertChoice room.choices rid pid c
              playerCardIndices := mapInsert room.playerCardIndices pid (idx + 1)
              }).matchList).1,
       Notif.waitingForOther pid ::
        (startNewRound rand
          { computeResults { room with
              choices := insertChoice room.choices rid pid c
              playerCardIndices := mapInsert room.playerCardIndices pid (idx + 1) } with
            roundNumber := (computeResults { room with
              choices := insertChoice room.choices rid pid c
              playerCardIndices := mapInsert room.playerCardIndices pid (idx + 1)
              }).roundNumber + 1
            matchList := []
            neutrals := [] }
          (computeResults { room with
              choices := insertChoice room.choices rid pid c
              playerCardIndices := mapInsert room.playerCardIndices pid (idx + 1)
              }).matchList).2) := by
  unfold makeChoiceRoom
  rw [if_neg (by simp [h])]
  simp only [hdk, hix]
  rw [dif_neg hge]
  simp only [hdone, if_true, if_pos hm]

theorem makeChoiceRoom_finish_end (rand : Nat → Nat → Nat) (room : GameRoom)
    (pid rid : String) (c : Choice) (deck : List Restaurant) (idx : Nat)
    (h : hasVoted room.choices rid pid = false)
    (hdk : lookupA room.playerDecks pid = some deck)
    (hix : lookupA room.playerCardIndices pid = some idx)
    (hge : ¬ idx + 1 < deck.length)
    (hdone : allPlayersDone { room with
        choices := insertChoice room.choices rid pid c
        playerCardIndices := mapInsert room.playerCardIndices pid (idx + 1) } = true)
    (hm : ¬ 2 ≤ (computeResults { room with
        choices := insertChoice room.choices rid pid c
        playerCardIndices := mapInsert room.playerCardIndices pid (idx + 1) }).matchList.length) :
    makeChoiceRoom rand room pid rid c =
      (computeResults { room with
          choices := insertChoice room.choices rid pid c
          playerCardIndices := mapInsert room.playerCardIndices pid (idx + 1) },
       [Notif.waitingForOther pid,
        Notif.gameEnd
          (computeResults { room with
              choices := insertChoice room.choices rid pid c
              playerCardIndices := mapInsert room.playerCardIndices pid (idx + 1)
              }).matchList
          (computeResults { room with
              choices := insertChoice room.choices rid pid c
              playerCardIndices := mapInsert room.playerCardIndices pid (idx + 1)
              }).neutrals]) := by
  unfold makeChoiceRoom
  rw [if_neg (by simp [h])]
  simp only [hdk, hix]
  rw [dif_neg hge]
  simp only [hdone, if_true, if_neg hm]

theorem startNewRound_cursorInv (rand : Nat → Nat → Nat) (room : GameRoom)
    (L : List Restaurant) : cursorInv (startNewRound rand room L).1 := by
  intro q hq d i h1 h2
  rw [startNewRound_players] at hq
  have hmem : q ∈ room.players.enum.map Prod.snd := by
    rw [List.enum_map_snd]; exact hq
  rcases assignDecks_lookup_mem rand L room.players.enum
      (room.playerDecks, room.playerCardIndices) q hmem with ⟨⟨j, hj⟩, h0⟩
  rw [startNewRound_playerCardIndices, h0] at h2
  obtain rfl : (0 : Nat) = i := by injection h2
  exact Nat.zero_le _

/-- A concrete mid-round room: both players have decks of size 1; `p1` has
finished (cursor 1), `p2` has not (cursor 0); `p1` has voted on `r1`. -/
def roomRating : GameRoom :=
  { players := ["p1", "p2"]
    restaurants := [⟨"r1", "Thai"⟩]
    playerDecks := [("p1", [⟨"r1", "Thai"⟩]), ("p2", [⟨"r1", "Thai"⟩])]
    playerCardIndices := [("p1", 1), ("p2", 0)]
    choices := [("r1", [("p1", Choice.YES)])]
    matchList := []
    neutrals := []
    submittedPlayers := ["p1", "p2"]
    roundNumber := 1 }

/-- C4: a second recordChoice call for a (participant, item) pair that already
has a choice ledger entry is a silent no-op regardless of the choice value:
the room state (hence the ledger and the cursor) is unchanged and no
notification is emitted. -/
theorem C4_duplicate_vote_silent_noop (rand : Nat → Nat → Nat) (room : GameRoom)
    (pid rid : String) (c : Choice) (h : hasVoted room.choices rid pid = true) :
    makeChoiceRoom rand room pid rid c = (room, []) :=
  makeChoiceRoom_dup rand room pid rid c h

/-- C4 witness: `p1` re-votes NO on `r1` after an earlier YES; nothing changes
and nothing is emitted. -/
theorem C4_witness :
    hasVoted roomRating.choices "r1" "p1" = true ∧
    makeChoiceRoom (fun _ _ => 0) roomRating "p1" "r1" Choice.NO = (roomRating, []) :=
  ⟨by decide, C4_duplicate_vote_silent_noop (fun _ _ => 0) roomRating "p1" "r1" Choice.NO
    (by decide)⟩

/-- C5 counterexample: the cursor bound `cursor[p] ≤ personalOrder[p].length` is
NOT preserved by every recordChoice call — a vote on a fresh item id accepted
after `p1` finished their deck advances the cursor to 2 while the deck has
length 1. -/
theorem C5_counterexample :
    cursorInv roomRating ∧
    ¬ cursorInv (makeChoiceRoom (fun _ _ => 0) roomRating "p1" "zz" Choice.YES).1 := by
  constructor
  · rw [cursorInv_iff]; decide
  · rw [cursorInv_iff]; decide

/-- C5 amended: `0 ≤ cursor[p] ≤ personalOrder[p].length` is preserved by every
recordChoice call whose acting participant has not yet finished their deck
(cursor strictly below deck length whenever deck and cursor are assigned), and
every round start re-establishes it; but a recordChoice accepted after the
participant finished their deck pushes the cursor past the deck length. -/
theorem C5_amended_cursor_bound (rand : Nat → Nat → Nat) (room : GameRoom)
    (pid rid : String) (c : Choice) (hinv : cursorInv room)
    (hactive : ∀ d i, lookupA room.playerDecks pid = some d →
      lookupA room.playerCardIndices pid = some i → i < d.length) :
    cursorInv (makeChoiceRoom rand room pid rid c).1 ∧
    (∀ L, cursorInv (startNewRound rand room L).1) := by
  refine ⟨?_, fun L => startNewRound_cursorInv rand room L⟩
  by_cases hv : hasVoted room.choices rid pid
  · rw [makeChoiceRoom_dup rand room pid rid c hv]
    exact hinv
  · have hv' : hasVoted room.choices rid pid = false := by simpa using hv
    cases hdk : lookupA room.playerDecks pid with
    | none =>
      rw [makeChoiceRoom_noDeck rand room pid rid c hv' hdk]
      intro q hq d i h1 h2
      exact hinv q hq d i h1 h2
    | some deck =>
      cases hix : lookupA room.playerCardIndices pid with
      | none =>
        rw [makeChoiceRoom_noIdx rand room pid rid c hv' hix]
        intro q hq d i h1 h2
        exact hinv q hq d i h1 h2
      | some idx =>
        have hlt : idx < deck.length := hactive deck idx hdk hix
        have hinv2 : cursorInv { room with
            choices := insertChoice room.choices rid pid c
            playerCardIndices := mapInsert room.playerCardIndices pid (idx + 1) } := by
          intro q hq d i h1 h2
          replace hq : q ∈ room.players := hq
          replace h1 : lookupA room.playerDecks q = some d := h1
          replace h2 : lookupA (mapInsert room.playerCardIndices pid (idx + 1)) q = some i := h2
          by_cases hqp : q = pid
          · subst hqp
            rw [lookupA_mapInsert_self] at h2
            obtain rfl : idx + 1 = i := by injection h2
            rw [hdk] at h1
            obtain rfl : deck = d := by injection h1
            exact hlt
          · rw [lookupA_mapInsert_ne _ _ hqp] at h2
            exact hinv q hq d i h1 h2
        by_cases hnext : idx + 1 < deck.length
        · rw [makeChoiceRoom_advance rand room pid rid c deck idx hv' hdk hix hnext]
          exact hinv2
        · cases hdone : allPlayersDone { room with
              choices := insertChoice room.choices rid pid c
              playerCardIndices := mapInsert room.playerCardIndices pid (idx + 1) } with
          | false =>
            rw [makeChoiceRoom_finish_notAllDone rand room pid rid c deck idx hv' hdk hix
              hnext hdone]
            exact hinv2
          | true =>
            have hinv3 : cursorInv (computeResults { room with
                choices := insertChoice room.choices rid pid c
                playerCardIndices := mapInsert room.playerCardIndices pid (idx + 1) }) := by
              intro q hq d i h1 h2
              have hp := computeResults_preserves { room with
                choices := insertChoice room.choices rid pid c
                playerCardIndices := mapInsert room.playerCardIndices pid (idx + 1) }
              rw [hp.1] at hq
              rw [hp.2.2.1] at h1
              rw [hp.2.2.2.1] at h2
              exact hinv2 q hq d i h1 h2
            by_cases hm : 2 ≤ (computeResults { room with
                choices := insertChoice room.choices rid pid c
                playerCardIndices := mapInsert room.playerCardIndices pid (idx + 1) }).matchList.length
            · rw [makeChoiceRoom_finish_runoff rand room pid rid c deck idx hv' hdk hix
                hnext hdone hm]
              exact startNewRound_cursorInv rand _ _
            · rw [makeChoiceRoom_finish_end rand room pid rid c deck idx hv' hdk hix
                hnext hdone hm]
              exact hinv3

/-- C5 witness: `p2` (cursor 0, deck length 1) votes; the invariant holds before
and after. -/
theorem C5_witness :
    cursorInv roomRating ∧
    cursorInv (makeChoiceRoom (fun _ _ => 0) roomRating "p2" "r1" Choice.YES).1 := by
  have hactive : ∀ d i, lookupA roomRating.playerDecks "p2" = some d →
      lookupA roomRating.playerCardIndices "p2" = some i → i < d.length := by
    intro d i h1 h2
    replace h1 : some [(⟨"r1", "Thai"⟩ : Restaurant)] = some d := h1
    replace h2 : some 0 = some i := h2
    obtain rfl : [(⟨"r1", "Thai"⟩ : Restaurant)] = d := by injection h1
    obtain rfl : 0 = i := by injection h2
    decide
  have hinv : cursorInv roomRating := by rw [cursorInv_iff]; decide
  exact ⟨hinv, (C5_amended_cursor_bound (fun _ _ => 0) roomRating "p2" "r1" Choice.YES
    hinv hactive).1⟩

/-- A concrete room still in the submitting phase: no decks assigned yet. -/
def roomSubmitting : GameRoom :=
  { players := ["p1", "p2"]
    restaurants := [⟨"a1", "Thai"⟩]
    playerDecks := []
    playerCardIndices := []
    choices := []
    matchList := []
    neutrals := []
    submittedPlayers := ["p1"]
    roundNumber := 1 }

/-- C6 counterexample: a makeChoice received before decks are assigned is NOT
rejected with an error notification, and the session state is NOT left
unchanged — the choice is recorded into the ledger and no notification at all
is emitted (the handler only logs server-side). -/
theorem C6_counterexample :
    (handleMakeChoice (fun _ _ => 0) [("R1", roomSubmitting)] (some "R1") "p1" "a1"
        Choice.YES).2 = [] ∧
    lookupA (handleMakeChoice (fun _ _ => 0) [("R1", roomSubmitting)] (some "R1") "p1" "a1"
        Choice.YES).1 "R1" =
      some { roomSubmitting with choices := [("a1", [("p1", Choice.YES)])] } ∧
    roomSubmitting.choices = [] :=
  ⟨by decide, by decide, rfl⟩

/-- C6 amended: a makeChoice from a connection with no current room is rejected
with an error notification and no state change; but a makeChoice for an
existing session in which the participant has no assigned deck (e.g. before the
rating phase) first records the choice into the ledger and then stops silently:
no cursor change, no notification. -/
theorem C6_amended_pre_rating_drop (rand : Nat → Nat → Nat) :
    (∀ (rooms : List (String × GameRoom)) (pid rid : String) (c : Choice),
      handleMakeChoice rand rooms none pid rid c =
        (rooms, [Notif.errorMsg pid "Not in a room"])) ∧
    (∀ (rooms : List (String × GameRoom)) (code : String) (room : GameRoom)
        (pid rid : String) (c : Choice),
      lookupA rooms code = some room →
      hasVoted room.choices rid pid = false →
      lookupA room.playerDecks pid = none →
      handleMakeChoice rand rooms (some code) pid rid c =
        (mapInsert rooms code { room with choices := insertChoice room.choices rid pid c },
         [])) := by
  constructor
  · intro rooms pid rid c
    rfl
  · intro rooms code room pid rid c hlk hv hdk
    unfold handleMakeChoice
    simp only [hlk]
    rw [makeChoiceRoom_noDeck rand room pid rid c hv hdk]

/-- C6 witness: both amended behaviours at concrete inputs. -/
theorem C6_witness :
    handleMakeChoice (fun _ _ => 0) [("R2", roomSubmitting)] none "p1" "a1" Choice.YES =
      ([("R2", roomSubmitting)], [Notif.errorMsg "p1" "Not in a room"]) ∧
    (lookupA [("R2", roomSubmitting)] "R2" = some roomSubmitting ∧
     handleMakeChoice (fun _ _ => 0) [("R2", roomSubmitting)] (some "R2") "p2" "a1"
        Choice.NO =
      (mapInsert [("R2", roomSubmitting)] "R2"
        { roomSubmitting with
            choices := insertChoice roomSubmitting.choices "a1" "p2" Choice.NO }, [])) :=
  ⟨(C6_amended_pre_rating_drop (fun _ _ => 0)).1 [("R2", roomSubmitting)] "p1" "a1"
      Choice.YES,
   ⟨by decide,
    (C6_amended_pre_rating_drop (fun _ _ => 0)).2 [("R2", roomSubmitting)] "R2"
      roomSubmitting "p2" "a1" Choice.NO (by decide) (by decide) (by decide)⟩⟩

/-- C7 counterexample: `createRoom` performs no collision retry — when the
random draw reproduces the code of an existing session, `rooms.set` replaces
that session with the new empty one. -/
theorem C7_counterexample :
    generateRoomCode "0.abc123" = "ABC123" ∧
    lookupA [("ABC123", emptyRoom "p0")] "ABC123" = some (emptyRoom "p0") ∧
    (handleCreateRoom "0.abc123" [("ABC123", emptyRoom "p0")] "p1").1 =
      [("ABC123", emptyRoom "p1")] ∧
    emptyRoom "p1" ≠ emptyRoom "p0" :=
  ⟨by decide, by decide, by decide, by decide⟩

/-- C7 amended: createRoom generates a single code with no collision retry.
When the generated code is distinct from every stored code, the new empty
session is appended and every other session is untouched; on a collision the
existing session under that code is overwritten. -/
theorem C7_amended_create_no_retry (randStr : String) (rooms : List (String × GameRoom))
    (pid : String) (hfresh : generateRoomCode randStr ∉ rooms.map Prod.fst) :
    (handleCreateRoom randStr rooms pid).1 =
      rooms ++ [(generateRoomCode randStr, emptyRoom pid)] ∧
    lookupA (handleCreateRoom randStr rooms pid).1 (generateRoomCode randStr) =
      some (emptyRoom pid) ∧
    (∀ code', code' ≠ generateRoomCode randStr →
      lookupA (handleCreateRoom randStr rooms pid).1 code' = lookupA rooms code') := by
  refine ⟨?_, ?_, ?_⟩
  · exact mapInsert_of_notMem _ hfresh
  · exact lookupA_mapInsert_self _ _ _
  · intro code' hne
    exact lookupA_mapInsert_ne _ _ hne

/-- C7 witness: a fresh draw appends the new session and preserves the old one. -/
theorem C7_witness :
    generateRoomCode "0.xyz789" = "XYZ789" ∧
    generateRoomCode "0.xyz789" ∉ ([("ABC123", emptyRoom "p0")].map Prod.fst) ∧
    (handleCreateRoom "0.xyz789" [("ABC123", emptyRoom "p0")] "p1").1 =
      [("ABC123", emptyRoom "p0")] ++ [(generateRoomCode "0.xyz789", emptyRoom "p1")] ∧
    lookupA (handleCreateRoom "0.xyz789" [("ABC123", emptyRoom "p0")] "p1").1 "ABC123" =
      lookupA [("ABC123", emptyRoom "p0")] "ABC123" :=
  ⟨by decide, by decide,
   (C7_amended_create_no_retry "0.xyz789" [("ABC123", emptyRoom "p0")] "p1" (by decide)).1,
   (C7_amended_create_no_retry "0.xyz789" [("ABC123", emptyRoom "p0")] "p1"
      (by decide)).2.2 "ABC123" (by decide)⟩

/-- C9: disconnect removes the participant (in any state) and deletes the
session exactly when the player set becomes empty; removing an absent
participant from a nonempty room changes nothing; a late submitRestaurants for
a destroyed (absent) session is a silent no-op leaving the registry unchanged,
and one with no current room yields only a NotInRoom error. -/
theorem C9_disconnect_removal_and_ghost_submit :
    (∀ (rooms : List (String × GameRoom)) (code : String) (room : GameRoom) (pid : String),
      lookupA rooms code = some room →
      lookupA (handleDisconnect rooms (some code) pid) code =
        (if room.players.filter (fun q => decide (q ≠ pid)) = [] then none
         else some { room with
            players := room.players.filter (fun q => decide (q ≠ pid)) })) ∧
    (∀ (rooms : List (String × GameRoom)) (code : String) (room : GameRoom) (pid : String),
      lookupA rooms code = some room → pid ∉ room.players → room.players ≠ [] →
      handleDisconnect rooms (some code) pid = rooms) ∧
    (∀ (rand : Nat → Nat → Nat) (mkId : Nat → String) (rooms : List (String × GameRoom))
        (code pid : String) (names : List String), lookupA rooms code = none →
      handleSubmitRestaurants rand mkId rooms (some code) pid names = (rooms, [])) ∧
    (∀ (rand : Nat → Nat → Nat) (mkId : Nat → String) (rooms : List (String × GameRoom))
        (pid : String) (names : List String),
      handleSubmitRestaurants rand mkId rooms none pid names =
        (rooms, [Notif.errorMsg pid "Not in a room"])) := by
  refine ⟨?_, ?_, ?_, ?_⟩
  · intro rooms code room pid hlk
    unfold handleDisconnect
    simp only [hlk]
    by_cases hempty : room.players.filter (fun q => decide (q ≠ pid)) = []
    · rw [if_pos hempty]
      rw [if_pos (show (room.players.filter (fun q => decide (q ≠ pid))).length = 0 by
        rw [hempty]; rfl)]
      exact lookupA_mapDelete_self rooms code
    · rw [if_neg hempty]
      rw [if_neg (show ¬ (room.players.filter (fun q => decide (q ≠ pid))).length = 0 from
        fun hh => hempty (List.length_eq_zero.mp hh))]
      exact lookupA_mapInsert_self _ _ _
  · intro rooms code room pid hlk habs hne
    have hfilter : room.players.filter (fun q => decide (q ≠ pid)) = room.players :=
      List.filter_eq_self.mpr (fun a ha => by
        simpa using fun hh : a = pid => habs (hh ▸ ha))
    unfold handleDisconnect
    simp only [hlk, hfilter]
    rw [if_neg (show ¬ room.players.length = 0 from
      fun hh => hne (List.length_eq_zero.mp hh))]
    have heta : ({ room with players := room.players } : GameRoom) = room := rfl
    rw [heta]
    exact mapInsert_self_eq hlk
  · intro rand mkId rooms code pid names hlk
    unfold handleSubmitRestaurants
    simp only [hlk]
  · intro rand mkId rooms pid names
    rfl

/-- C9 witness: concrete disconnects (present participant emptying the room;
absent participant as a no-op) and a ghost submit to a missing code. -/
theorem C9_witness :
    lookupA [("AAA111", emptyRoom "p1"), ("BBB222", roomSubmitting)] "AAA111" =
      some (emptyRoom "p1") ∧
    lookupA (handleDisconnect [("AAA111", emptyRoom "p1"), ("BBB222", roomSubmitting)]
      (some "AAA111") "p1") "AAA111" = none ∧
    handleDisconnect [("AAA111", emptyRoom "p1"), ("BBB222", roomSubmitting)]
      (some "BBB222") "zz" = [("AAA111", emptyRoom "p1"), ("BBB222", roomSubmitting)] ∧
    handleSubmitRestaurants (fun _ _ => 0) (fun _ => "id0") [("AAA111", emptyRoom "p1")]
      (some "CCC333") "p9" ["Thai"] = ([("AAA111", emptyRoom "p1")], []) := by
  refine ⟨by decide, ?_, ?_, ?_⟩
  · have h := C9_disconnect_removal_and_ghost_submit.1
      [("AAA111", emptyRoom "p1"), ("BBB222", roomSubmitting)] "AAA111" (emptyRoom "p1")
      "p1" (by decide)
    rw [h]
    decide
  · exact C9_disconnect_removal_and_ghost_submit.2.1
      [("AAA111", emptyRoom "p1"), ("BBB222", roomSubmitting)] "BBB222" roomSubmitting
      "zz" (by decide) (by decide) (by decide)
  · exact C9_disconnect_removal_and_ghost_submit.2.2.1 (fun _ _ => 0) (fun _ => "id0")
      [("AAA111", emptyRoom "p1")] "CCC333" "p9" ["Thai"] (by decide)

theorem completeRound_runoff_spec (rand : Nat → Nat → Nat) (room3 : GameRoom) :
    (startNewRound rand
      { room3 with roundNumber := room3.roundNumber + 1, matchList := [], neutrals := [] }
      room3.matchList).1.roundNumber = room3.roundNumber + 1 ∧
    (startNewRound rand
      { room3 with roundNumber := room3.roundNumber + 1, matchList := [], neutrals := [] }
      room3.matchList).1.restaurants = room3.matchList ∧
    (startNewRound rand
      { room3 with roundNumber := room3.roundNumber + 1, matchList := [], neutrals := [] }
      room3.matchList).1.matchList = [] ∧
    (startNewRound rand
      { room3 with roundNumber := room3.roundNumber + 1, matchList := [], neutrals := [] }
      room3.matchList).1.neutrals = [] ∧
    (startNewRound rand
      { room3 with roundNumber := room3.roundNumber + 1, matchList := [], neutrals := [] }
      room3.matchList).1.choices = [] ∧
    (∀ q ∈ room3.players,
      lookupA (startNewRound rand
        { room3 with roundNumber := room3.roundNumber + 1, matchList := [], neutrals := [] }
        room3.matchList).1.playerCardIndices q = some 0 ∧
      ∃ d, lookupA (startNewRound rand
        { room3 with roundNumber := room3.roundNumber + 1, matchList := [], neutrals := [] }
        room3.matchList).1.playerDecks q = some d ∧ d.Perm room3.matchList) ∧
    (∃ fc, (startNewRound rand
      { room3 with roundNumber := room3.roundNumber + 1, matchList := [], neutrals := [] }
      room3.matchList).2 =
        Notif.newRound (room3.roundNumber + 1) room3.matchList :: fc) := by
  refine ⟨rfl, rfl, rfl, rfl, rfl, ?_, ?_⟩
  · intro q hq
    have hq5 : q ∈ ({ room3 with
        roundNumber := room3.roundNumber + 1
        matchList := []
        neutrals := [] } : GameRoom).players := hq
    rcases startNewRound_decks_spec rand
      { room3 with roundNumber := room3.roundNumber + 1, matchList := [], neutrals := [] }
      room3.matchList q hq5 with ⟨⟨d, hd, hperm⟩, h0⟩
    exact ⟨h0, d, hd, hperm⟩
  · exact startNewRound_notifs rand _ _

/-- C3: when a recordChoice completes the round — the acting participant's new
cursor reaches their deck length and every other participant's cursor already
equals their deck length — then with 2 or more computed matches the round
number increments by exactly 1, the next round's working item list is exactly
the matches in their current order, matches, neutrals and the choice ledger
are cleared, every participant's cursor resets to 0 with a fresh deck (back to
rating, announced by a newRound notification); otherwise (0 or 1 match) the
state is the computed results and all participants are notified with a final
gameEnd carrying the matches and neutrals. -/
theorem C3_round_completion_runoff_or_end (rand : Nat → Nat → Nat) (room : GameRoom)
    (pid rid : String) (c : Choice) (deck : List Restaurant) (idx : Nat)
    (hv : hasVoted room.choices rid pid = false)
    (hdk : lookupA room.playerDecks pid = some deck)
    (hix : lookupA room.playerCardIndices pid = some idx)
    (hfin : idx + 1 = deck.length)
    (hothers : ∀ q ∈ room.players, q ≠ pid →
      lookupA room.playerCardIndices q =
        some ((lookupA room.playerDecks q).getD []).length)
    (room2 : GameRoom)
    (hroom2 : room2 = { room with
      choices := insertChoice room.choices rid pid c
      playerCardIndices := mapInsert room.playerCardIndices pid (idx + 1) })
    (M N : List Restaurant)
    (hM : M = (computeResults room2).matchList)
    (hN : N = (computeResults room2).neutrals) :
    (2 ≤ M.length →
      (makeChoiceRoom rand room pid rid c).1.roundNumber = room.roundNumber + 1 ∧
      (makeChoiceRoom rand room pid rid c).1.restaurants = M ∧
      (makeChoiceRoom rand room pid rid c).1.matchList = [] ∧
      (makeChoiceRoom rand room pid rid c).1.neutrals = [] ∧
      (makeChoiceRoom rand room pid rid c).1.choices = [] ∧
      (∀ q ∈ room.players,
        lookupA (makeChoiceRoom rand room pid rid c).1.playerCardIndices q = some 0 ∧
        ∃ d, lookupA (makeChoiceRoom rand room pid rid c).1.playerDecks q = some d ∧
          d.Perm M) ∧
      (∃ fc, (makeChoiceRoom rand room pid rid c).2 =
        Notif.waitingForOther pid :: Notif.newRound (room.roundNumber + 1) M :: fc)) ∧
    (M.length < 2 →
      (makeChoiceRoom rand room pid rid c).1 = computeResults room2 ∧
      (makeChoiceRoom rand room pid rid c).2 =
        [Notif.waitingForOther pid, Notif.gameEnd M N]) := by
  have hge : ¬ idx + 1 < deck.length := by omega
  have hdone : allPlayersDone room2 = true := by
    rw [hroom2]
    unfold allPlayersDone
    rw [List.all_eq_true]
    intro q hq
    replace hq : q ∈ room.players := hq
    by_cases hqp : q = pid
    · subst hqp
      show (match lookupA (mapInsert room.playerCardIndices q (idx + 1)) q with
        | some i => decide (i = ((lookupA room.playerDecks q).getD []).length)
        | none => false) = true
      rw [lookupA_mapInsert_self, hdk]
      simpa using hfin
    · show (match lookupA (mapInsert room.playerCardIndices pid (idx + 1)) q with
        | some i => decide (i = ((lookupA room.playerDecks q).getD []).length)
        | none => false) = true
      rw [lookupA_mapInsert_ne _ _ hqp, hothers q hq hqp]
      simp
  have hrn : room2.roundNumber = room.roundNumber := by rw [hroom2]
  have hplayers : room2.players = room.players := by rw [hroom2]
  have hprs := computeResults_preserves room2
  constructor
  · intro hm
    have hm2 : 2 ≤ (computeResults room2).matchList.length := by rw [← hM]; exact hm
    rw [hroom2] at hm2
    have hrw := makeChoiceRoom_finish_runoff rand room pid rid c deck idx hv hdk hix hge
      (hroom2 ▸ hdone) hm2
    rw [hrw, ← hroom2]
    have hspec := completeRound_runoff_spec rand (computeResults room2)
    refine ⟨?_, ?_, ?_, ?_, ?_, ?_, ?_⟩
    · rw [hspec.1, hprs.2.2.2.2.2, hrn]
    · rw [hspec.2.1, ← hM]
    · exact hspec.2.2.1
    · exact hspec.2.2.2.1
    · exact hspec.2.2.2.2.1
    · intro q hq
      have hq3 : q ∈ (computeResults room2).players := by
        rw [hprs.1, hplayers]; exact hq
      rcases hspec.2.2.2.2.2.1 q hq3 with ⟨h0, d, hd, hperm⟩
      exact ⟨h0, d, hd, by rw [hM]; exact hperm⟩
    · rcases hspec.2.2.2.2.2.2 with ⟨fc, hfc⟩
      refine ⟨fc, ?_⟩
      show Notif.waitingForOther pid ::
        (startNewRound rand
          { computeResults room2 with
            roundNumber := (computeResults room2).roundNumber + 1
            matchList := []
            neutrals := [] }
          (computeResults room2).matchList).2 = _
      rw [hfc, hprs.2.2.2.2.2, hrn, ← hM]
  · intro hm
    have hm2 : ¬ 2 ≤ (computeResults room2).matchList.length := by
      rw [← hM]; omega
    rw [hroom2] at hm2
    have hrw := makeChoiceRoom_finish_end rand room pid rid c deck idx hv hdk hix hge
      (hroom2 ▸ hdone) hm2
    rw [hrw, ← hroom2]
    exact ⟨rfl, by rw [hM, hN]⟩

/-- A concrete room one vote away from completion: `p2` has finished both
cards, `p1` has one card (`"b"`) left; `"a"` already has two YES votes. -/
def roomFin : GameRoom :=
  { players := ["p1", "p2"]
    restaurants := [⟨"a", "Alpha"⟩, ⟨"b", "Beta"⟩]
    playerDecks := [("p1", [⟨"a", "Alpha"⟩, ⟨"b", "Beta"⟩]),
                    ("p2", [⟨"a", "Alpha"⟩, ⟨"b", "Beta"⟩])]
    playerCardIndices := [("p1", 1), ("p2", 2)]
    choices := [("a", [("p1", Choice.YES), ("p2", Choice.YES)]),
                ("b", [("p2", Choice.YES)])]
    matchList := []
    neutrals := []
    submittedPlayers := ["p1", "p2"]
    roundNumber := 1 }

/-- C3 witness: `p1`'s final YES completes the round with two matches, so a
runoff starts — the round number becomes 2 and the ledger is cleared. -/
theorem C3_witness :
    hasVoted roomFin.choices "b" "p1" = false ∧
    ((makeChoiceRoom (fun _ _ => 0) roomFin "p1" "b" Choice.YES).1.roundNumber = 2 ∧
     (makeChoiceRoom (fun _ _ => 0) roomFin "p1" "b" Choice.YES).1.choices = [] ∧
     (makeChoiceRoom (fun _ _ => 0) roomFin "p1" "b" Choice.YES).1.matchList = []) := by
  refine ⟨by decide, ?_⟩
  have h := (C3_round_completion_runoff_or_end (fun _ _ => 0) roomFin "p1" "b" Choice.YES
    [⟨"a", "Alpha"⟩, ⟨"b", "Beta"⟩] 1 (by decide) (by decide) (by decide) (by decide)
    (by decide) _ rfl _ _ rfl rfl).1 (by decide)
  exact ⟨h.1, h.2.2.2.2.1, h.2.2.1⟩
